import Mathlib

/-!
Verification development for the CatHerder reflective code creator and
debugger (single source file `catHerder.py`).

The embedding below translates the Python source into Lean:
strings are modelled as Lean `String` (lists of characters), Python
`str.find` and slicing are modelled index-exactly (including the `-1`
result of a failed `find` and negative slice indices), and the
side-effecting parts of `main` (network calls to the model, `exec` of
generated code, file reads, `input()`, file writes) are modelled by an
explicit environment of oracles plus an event trace: each chat request,
each execution, and each call to `save_code_to_file` becomes one event
in the order the source performs them.
-/

set_option linter.unusedVariables false
set_option maxRecDepth 100000

namespace CatHerder

/-! ### Python string primitives

List-of-characters versions of the exact Python operations used by
`extract_code` (source lines 28-50): `str.find(sub, start)` and slicing
`s[a:b]` with possibly negative indices. -/

/-- Boolean test that `pat` occurs at the head of `s`. -/
def leadsWith : List Char → List Char → Bool
  | [], _ => true
  | _ :: _, [] => false
  | a :: as, b :: bs => a = b && leadsWith as bs

/-- Index of the first occurrence of `pat` in `s`, if any. -/
def findIdx (pat : List Char) : List Char → Option Nat
  | [] => if leadsWith pat [] then some 0 else none
  | c :: rest =>
      if leadsWith pat (c :: rest) then some 0
      else (findIdx pat rest).map (fun k => k + 1)

/-- Resolution of a Python slice or search index against a string of
length `len`: negative values count from the end and everything is
clamped into `[0, len]`. -/
def pyIndex (len : Nat) (i : Int) : Nat :=
  if i < 0 then (len + i).toNat else min i.toNat len

/-- Python `s.find(pat, start)`: index of the first occurrence of `pat`
at or after `start`, and `-1` when there is none.  (For the empty
pattern with `start > len` Python returns `-1` while this returns
`start`; both patterns used by the source are non-empty, so the two
agree on every reachable call.) -/
def pyFindFrom (s pat : List Char) (start : Int) : Int :=
  let lo := pyIndex s.length start
  match findIdx pat (s.drop lo) with
  | some k => ((lo + k : Nat) : Int)
  | none => -1

/-- Python slice `s[a:b]`. -/
def pySlice (s : List Char) (a b : Int) : List Char :=
  (s.take (pyIndex s.length b)).drop (pyIndex s.length a)

/-! ### extract_code (source lines 28-50)

The source first projects the response dictionary to
`response['choices'][0]['message']['content']`; the model takes that
content string directly.  The body is then translated operation for
operation: `find` of the opening tag (yielding `-1` when absent),
addition of the tag length, `find` of the closing fence from that
index, and the final slice. -/

/-- The opening tag `f"```{code_type}\n"` built at source line 43. -/
def tagFor (code_type : List Char) : List Char :=
  "```".data ++ code_type ++ "\n".data

/-- Model of `extract_code` (source lines 28-50) on the response
content string. -/
def extract_code (content : List Char) (code_type : List Char) : List Char :=
  let start_tag := tagFor code_type
  let start_index : Int := pyFindFrom content start_tag 0 + (start_tag.length : Int)
  let end_index : Int := pyFindFrom content "\n```".data start_index
  pySlice content start_index end_index

/-- String-level wrapper of `extract_code`. -/
def extractCodeStr (content code_type : String) : String :=
  String.mk (extract_code content.data code_type.data)

/-! ### Model Gateway (source lines 52-90) -/

/-- The default value of the `special_instructions` parameter of
`call_chatgpt` (source line 52). -/
def defaultInstructions : String :=
  "Implement a script in a single code block to perform this task: "

/-- The user message `call_chatgpt` actually sends (source lines 64-69).
Source line 64 unconditionally overwrites the `special_instructions`
parameter before it is used, so the argument passed by a caller never
reaches the request. -/
def chatgptRequest (prompt code_type special_instructions : String) : String :=
  let special_instructions :=
    "Implement a " ++ code_type ++ " script in a single code block to perform this task: "
  special_instructions ++ prompt

/-- Model of `call_chatgpt` (source lines 52-73): send the constructed
user message through the chat oracle `respond` and extract a fenced
code block from the reply. -/
def call_chatgpt (prompt : String) (respond : String → String) (code_type : String)
    (special_instructions : String := defaultInstructions) : String :=
  extractCodeStr (respond (chatgptRequest prompt code_type special_instructions)) code_type

/-- The repair prompt template of `debug_code_with_chatgpt` (source
line 89). -/
def debug_prompt (original_prompt code error : String) : String :=
  "The original prompt was:\n\n" ++ original_prompt ++
    "\n\nHere is the code:\n\n" ++ code ++
    "\n\nIt produced the following error:\n\n" ++ error ++
    "\n\nPlease help me fix it."

/-- Model of `debug_code_with_chatgpt` (source lines 75-90). -/
def debug_code_with_chatgpt (original_prompt code error : String)
    (respond : String → String) (code_type : String) : String :=
  call_chatgpt (debug_prompt original_prompt code error) respond code_type

/-! ### Artifact Store (source lines 92-111) -/

/-- A single file write: destination path and the bytes written. -/
structure FileWrite where
  path : String
  content : String
deriving DecidableEq

/-- Model of `save_code_to_file` (source lines 92-111).  The directory
creation at lines 103-104 is a side effect with no influence on the
written path or bytes and is elided.  Note the `iteration` parameter is
never used by the body. -/
def save_code_to_file (code : String) (code_type : String) (iteration : Int)
    (status : String) : FileWrite :=
  let ext := if code_type = "python" then "py" else code_type
  { path := "./scripts/script_" ++ status ++ "." ++ ext, content := code }

/-! ### main (source lines 113-201)

The command line arguments after parsing, the outside world, and the
observable trace of a run. -/

/-- Parsed command line arguments (source lines 117-122).  `none`
models an absent flag; Python truthiness additionally treats an empty
string as absent. -/
structure Args where
  prompt : Option String
  modify : Option String
  code_type : String
  iterations : Int

/-- Python truthiness of an optional string flag. -/
def truthy : Option String → Bool
  | none => false
  | some s => s != ""

/-- Rendering of an optional string in a Python f-string: `None` prints
as the four characters `None`.  Used because source line 187 passes
`args.prompt`, which is `None` in modify mode. -/
def pyStr : Option String → String
  | some s => s
  | none => "None"

/-- Outcome of `exec(code)` at source line 169 as observed by the
`except Exception` handler at line 177: normal completion, or an
exception whose `str` is the given error text. -/
inductive ExecResult where
  | success : ExecResult
  | failure (error : String) : ExecResult
deriving DecidableEq

/-- The outside world of one run: filesystem contents (a path maps to
`some` contents exactly when `os.path.isfile` holds and `open` would
succeed), the reply to the interactive `input()` of modify mode, the
chat oracle indexed by how many chat calls have already been made, and
the outcome of the `exec` at each loop iteration (indexed by the
1-based iteration number, since executing generated code is stateful
and need not be a function of the code text alone). -/
structure Env where
  fileContents : String → Option String
  userInput : String
  respond : Nat → String → String
  execAt : Nat → ExecResult

/-- One observable step of a run: a chat request with its user message,
an execution of a code text with its outcome, or a call to
`save_code_to_file` with the exact arguments the source passes. -/
inductive Event where
  | modelCall (userMessage : String) : Event
  | execEvent (code : String) (result : ExecResult) : Event
  | save (code : String) (code_type : String) (iteration : Int) (status : String) : Event
deriving DecidableEq

/-- The debug loop of `main` (source lines 162-192): `i` is the Python
loop variable, `remaining` the number of iterations left in
`range(1, args.iterations + 1)`, `calls` the number of chat calls made
so far (used to index the chat oracle), `code` and `lastErr` the
`code` and `last_error_message` variables.  Returns the events of the
loop together with the final value of `code`.  On success the loop
saves the code as `debugged` and breaks (lines 173-176); on a failure
equal to the previous error it breaks with no further action (lines
181-183); otherwise it records the error, asks the model for a fix
with `debug_code_with_chatgpt(args.prompt, code, error_message, ...)`
(line 187 passes the raw `args.prompt`), saves the fix as
`iteration_{i}`, and continues; for a non-python code type it prints
and breaks before any execution (lines 170-172). -/
def loopRun (args : Args) (env : Env) (code : String) (lastErr : Option String) :
    Nat → Nat → Nat → List Event × String
  | _, 0, _ => ([], code)
  | i, r + 1, calls =>
    if args.code_type = "python" then
      match env.execAt i with
      | ExecResult.success =>
          ([Event.execEvent code ExecResult.success,
            Event.save code args.code_type (i : Int) "debugged"], code)
      | ExecResult.failure e =>
          if lastErr = some e then
            ([Event.execEvent code (ExecResult.failure e)], code)
          else
            let newCode := debug_code_with_chatgpt (pyStr args.prompt) code e
              (env.respond calls) args.code_type
            let dmsg := chatgptRequest (debug_prompt (pyStr args.prompt) code e)
              args.code_type defaultInstructions
            let res := loopRun args env newCode (some e) (i + 1) r (calls + 1)
            (Event.execEvent code (ExecResult.failure e) :: Event.modelCall dmsg ::
              Event.save newCode args.code_type (i : Int) ("iteration_" ++ toString i) ::
              res.1,
             res.2)
    else
      ([], code)

/-- The initial prompt text resolved at source lines 138-143: the file
contents when the `--prompt` value names an existing file, the literal
value otherwise. -/
def promptTextOf (args : Args) (env : Env) : String :=
  match env.fileContents (args.prompt.getD "") with
  | some fileText => fileText
  | none => args.prompt.getD ""

/-- Model of `main` (source lines 113-201) from the point where the
arguments have been parsed.  Returns `none` when the run dies on an
unhandled exception (the `open` of a missing `--modify` file, line
146); reading the API key file (line 134) is credential glue treated
as part of the environment.  `some events` is the observable trace:
- neither flag truthy: usage text is printed and `main` returns with
  no other action (lines 124-132);
- `--prompt`: the prompt resolves to the file contents when the path
  exists, else to the literal text (lines 138-144);
- `--modify`: the file is read and `input()` supplies the description;
  the modification instructions built at line 149 are passed to
  `call_chatgpt` (and discarded there by line 64);
- `latex` short-circuit (lines 151-154), `initial` save (line 160),
  the debug loop, and the unconditional `final` save (line 195). -/
def mainRun (args : Args) (env : Env) : Option (List Event) :=
  if !truthy args.prompt && !truthy args.modify then
    some []
  else
    let gen : Option (String × String) :=
      if truthy args.prompt then
        some (chatgptRequest (promptTextOf args env) args.code_type defaultInstructions,
              call_chatgpt (promptTextOf args env) (env.respond 0) args.code_type)
      else
        match env.fileContents (args.modify.getD "") with
        | none => none
        | some fileCode =>
            some (chatgptRequest env.userInput args.code_type
                    ("Modify the following code:\n\n" ++ fileCode ++ "\n\n"),
                  call_chatgpt env.userInput (env.respond 0) args.code_type
                    ("Modify the following code:\n\n" ++ fileCode ++ "\n\n"))
    match gen with
    | none => none
    | some (msg0, code0) =>
      if args.code_type = "latex" then
        some [Event.modelCall msg0, Event.save code0 args.code_type 0 "initial"]
      else
        let res := loopRun args env code0 none 1 args.iterations.toNat 1
        some (Event.modelCall msg0 :: Event.save code0 args.code_type 0 "initial" ::
          (res.1 ++ [Event.save res.2 args.code_type args.iterations "final"]))

/-! ### Trace observations -/

/-- The user messages of the chat requests of a trace, in order. -/
def modelMsgs : List Event → List String
  | [] => []
  | Event.modelCall m :: t => m :: modelMsgs t
  | _ :: t => modelMsgs t

/-- The executions of a trace: executed code and outcome, in order. -/
def execList : List Event → List (String × ExecResult)
  | [] => []
  | Event.execEvent c r :: t => (c, r) :: execList t
  | _ :: t => execList t

/-- The artifact saves of a trace as (status, contents) pairs, in
order. -/
def saveList : List Event → List (String × String)
  | [] => []
  | Event.save c _ _ s :: t => (s, c) :: saveList t
  | _ :: t => saveList t

/-- Contents of the last artifact save of a trace, if any. -/
def lastSaveContent : List Event → Option String
  | [] => none
  | Event.save c _ _ _ :: t => some ((lastSaveContent t).getD c)
  | _ :: t => lastSaveContent t

/-! ### Concrete runs used to evaluate the model -/

/-- Modify-mode invocation: `--modify old.py` with code type python. -/
def argsModify : Args :=
  { prompt := none, modify := some "old.py", code_type := "python", iterations := 5 }

/-- World for the modify-mode run: `old.py` holds `print(0)`, the user
types `add logging`, the model always replies with a fenced
`print(2)`, and execution succeeds. -/
def envModify : Env :=
  { fileContents := fun p => if p = "old.py" then some "print(0)" else none,
    userInput := "add logging",
    respond := fun _ _ => "```python\nprint(2)\n```",
    execAt := fun _ => ExecResult.success }

/-- Prompt-from-file invocation: `--prompt /tmp/p.txt`. -/
def argsPromptFile : Args :=
  { prompt := some "/tmp/p.txt", modify := none, code_type := "python", iterations := 5 }

/-- World for the prompt-from-file run: the file exists and holds
`Write a CSV parser.`, the first execution fails with `boom`, the
second succeeds. -/
def envPromptFile : Env :=
  { fileContents := fun p => if p = "/tmp/p.txt" then some "Write a CSV parser." else none,
    userInput := "",
    respond := fun _ _ => "```python\nprint(1)\n```",
    execAt := fun i => if i = 1 then ExecResult.failure "boom" else ExecResult.success }

/-- Inline-prompt python invocation with the default 5 iterations. -/
def argsPy : Args :=
  { prompt := some "x", modify := none, code_type := "python", iterations := 5 }

/-- World where every execution succeeds. -/
def envPy : Env :=
  { fileContents := fun _ => none, userInput := "",
    respond := fun _ _ => "```python\nprint(1)\n```",
    execAt := fun _ => ExecResult.success }

/-- Inline-prompt invocation with a non-executable code type. -/
def argsHtml : Args :=
  { prompt := some "make a page", modify := none, code_type := "html", iterations := 5 }

/-- World for the html run. -/
def envHtml : Env :=
  { fileContents := fun _ => none, userInput := "",
    respond := fun _ _ => "```html\n<p>hi</p>\n```",
    execAt := fun _ => ExecResult.success }

/-- Inline-prompt python invocation for the stagnation run. -/
def argsStag : Args :=
  { prompt := some "x", modify := none, code_type := "python", iterations := 5 }

/-- World where every execution fails with the same error text `E`. -/
def envStag : Env :=
  { fileContents := fun _ => none, userInput := "",
    respond := fun _ _ => "```python\nprint(1)\n```",
    execAt := fun _ => ExecResult.failure "E" }

/-- Inline-prompt python invocation with an iteration budget of 2. -/
def argsExh : Args :=
  { prompt := some "x", modify := none, code_type := "python", iterations := 2 }

/-- World where iteration `i` fails with the distinct error `e<i>`. -/
def envExh : Env :=
  { fileContents := fun _ => none, userInput := "",
    respond := fun _ _ => "```python\nprint(1)\n```",
    execAt := fun i => ExecResult.failure ("e" ++ toString i) }

/-! ### Structural lemmas about the loop and the run -/

lemma modelMsgs_append (a b : List Event) :
    modelMsgs (a ++ b) = modelMsgs a ++ modelMsgs b := by
  induction a with
  | nil => rfl
  | cons e t ih => cases e <;> simp [modelMsgs, ih]

lemma execList_append (a b : List Event) :
    execList (a ++ b) = execList a ++ execList b := by
  induction a with
  | nil => rfl
  | cons e t ih => cases e <;> simp [execList, ih]

lemma saveList_append (a b : List Event) :
    saveList (a ++ b) = saveList a ++ saveList b := by
  induction a with
  | nil => rfl
  | cons e t ih => cases e <;> simp [saveList, ih]

lemma getLast?_cons_of_ne_nil {α : Type} (a : α) {l : List α} (h : l ≠ []) :
    (a :: l).getLast? = l.getLast? := by
  cases l with
  | nil => exact absurd rfl h
  | cons b t => exact List.getLast?_cons_cons ..

lemma loopRun_zero (args : Args) (env : Env) (code : String) (lastErr : Option String)
    (i calls : Nat) : loopRun args env code lastErr i 0 calls = ([], code) := rfl

lemma loopRun_nonpython (args : Args) (env : Env) (h : args.code_type ≠ "python")
    (code : String) (lastErr : Option String) (i r calls : Nat) :
    loopRun args env code lastErr i r calls = ([], code) := by
  cases r with
  | zero => rfl
  | succ r => simp [loopRun, h]

lemma loopRun_success (args : Args) (env : Env) (h : args.code_type = "python")
    (code : String) (lastErr : Option String) (i r calls : Nat)
    (hex : env.execAt i = ExecResult.success) :
    loopRun args env code lastErr i (r + 1) calls =
      ([Event.execEvent code ExecResult.success,
        Event.save code args.code_type (i : Int) "debugged"], code) := by
  unfold loopRun
  rw [if_pos h, hex]

lemma loopRun_stagnant (args : Args) (env : Env) (h : args.code_type = "python")
    (code : String) (e : String) (i r calls : Nat)
    (hex : env.execAt i = ExecResult.failure e) :
    loopRun args env code (some e) i (r + 1) calls =
      ([Event.execEvent code (ExecResult.failure e)], code) := by
  simp [loopRun, h, hex]

lemma loopRun_repair (args : Args) (env : Env) (h : args.code_type = "python")
    (code : String) (lastErr : Option String) (e : String) (i r calls : Nat)
    (hex : env.execAt i = ExecResult.failure e) (hne : lastErr ≠ some e) :
    loopRun args env code lastErr i (r + 1) calls =
      (Event.execEvent code (ExecResult.failure e) ::
        Event.modelCall (chatgptRequest (debug_prompt (pyStr args.prompt) code e)
          args.code_type defaultInstructions) ::
        Event.save (debug_code_with_chatgpt (pyStr args.prompt) code e
            (env.respond calls) args.code_type)
          args.code_type (i : Int) ("iteration_" ++ toString i) ::
        (loopRun args env (debug_code_with_chatgpt (pyStr args.prompt) code e
            (env.respond calls) args.code_type) (some e) (i + 1) r (calls + 1)).1,
       (loopRun args env (debug_code_with_chatgpt (pyStr args.prompt) code e
            (env.respond calls) args.code_type) (some e) (i + 1) r (calls + 1)).2) := by
  simp only [loopRun, h, hex, reduceIte]
  rw [if_neg hne]

/-- Shape of a run that reaches the loop through the `--prompt` branch
with a non-latex code type. -/
lemma mainRun_prompt (args : Args) (env : Env) (hp : truthy args.prompt = true)
    (hnl : args.code_type ≠ "latex") :
    mainRun args env =
      some (Event.modelCall (chatgptRequest (promptTextOf args env) args.code_type
              defaultInstructions) ::
            Event.save (call_chatgpt (promptTextOf args env) (env.respond 0) args.code_type)
              args.code_type 0 "initial" ::
            ((loopRun args env (call_chatgpt (promptTextOf args env) (env.respond 0)
                args.code_type) none 1 args.iterations.toNat 1).1 ++
              [Event.save (loopRun args env (call_chatgpt (promptTextOf args env)
                  (env.respond 0) args.code_type) none 1 args.iterations.toNat 1).2
                args.code_type args.iterations "final"])) := by
  unfold mainRun
  rw [hp]
  simp only [Bool.not_true, Bool.false_and, Bool.false_eq_true, if_false, if_true,
    if_neg hnl]

/-- Shape of a latex run through the `--prompt` branch. -/
lemma mainRun_prompt_latex (args : Args) (env : Env) (hp : truthy args.prompt = true)
    (hl : args.code_type = "latex") :
    mainRun args env =
      some [Event.modelCall (chatgptRequest (promptTextOf args env) args.code_type
              defaultInstructions),
            Event.save (call_chatgpt (promptTextOf args env) (env.respond 0) args.code_type)
              args.code_type 0 "initial"] := by
  unfold mainRun
  rw [hp]
  simp only [Bool.not_true, Bool.false_and, Bool.false_eq_true, if_false, if_true,
    if_pos hl]

/-- Shape of a run that reaches the loop through the `--modify` branch
with a non-latex code type. -/
lemma mainRun_modify (args : Args) (env : Env) (hp : truthy args.prompt = false)
    (hm : truthy args.modify = true) (hnl : args.code_type ≠ "latex")
    (fileCode : String)
    (hfc : env.fileContents (args.modify.getD "") = some fileCode) :
    mainRun args env =
      some (Event.modelCall (chatgptRequest env.userInput args.code_type
              ("Modify the following code:\n\n" ++ fileCode ++ "\n\n")) ::
            Event.save (call_chatgpt env.userInput (env.respond 0) args.code_type
                ("Modify the following code:\n\n" ++ fileCode ++ "\n\n"))
              args.code_type 0 "initial" ::
            ((loopRun args env (call_chatgpt env.userInput (env.respond 0) args.code_type
                ("Modify the following code:\n\n" ++ fileCode ++ "\n\n"))
                none 1 args.iterations.toNat 1).1 ++
              [Event.save (loopRun args env (call_chatgpt env.userInput (env.respond 0)
                  args.code_type ("Modify the following code:\n\n" ++ fileCode ++ "\n\n"))
                  none 1 args.iterations.toNat 1).2
                args.code_type args.iterations "final"])) := by
  unfold mainRun
  rw [hp, hm, hfc]
  simp only [Bool.not_true, Bool.not_false, Bool.and_false, Bool.false_eq_true, if_false,
    Bool.false_eq_true, if_neg hnl]

/-! ### Theorems -/

/-- C10: the `iteration` argument of `save_code_to_file` has no effect:
two calls differing only in it write identical bytes to the identical
path `./scripts/script_<status>.<ext>`, with extension `py` for python
and the code type itself otherwise. -/
theorem save_iteration_irrelevant :
    ∀ (code code_type : String) (i j : Int) (status : String),
      save_code_to_file code code_type i status = save_code_to_file code code_type j status ∧
      (save_code_to_file code code_type i status).path =
        "./scripts/script_" ++ status ++ "." ++
          (if code_type = "python" then "py" else code_type) ∧
      (save_code_to_file code code_type i status).content = code :=
  fun _ _ _ _ _ => ⟨rfl, rfl, rfl⟩

/-- C3: on a response with no opening tag, `extract_code` does not fail:
the tag search returns `-1`, and the function returns the slice
`content[len(tag)-1 : -1]` - here `er`, the characters at indices 9 and
10 of `no code here`, a (garbage) substring of the response content
rather than any error. -/
theorem extraction_missing_tag_returns_slice :
    pyFindFrom "no code here".data (tagFor "python".data) 0 = -1 ∧
    extract_code "no code here".data "python".data = "er".data ∧
    "er".data = (("no code here".data).drop 9).take 2 :=
  ⟨by decide, by decide, by decide⟩

/-- C1: in modify mode the generation call does NOT use the
modification prefix: `chatgptRequest` ignores its `special_instructions`
argument entirely (source line 64 overwrites it), and in the concrete
modify run over `old.py` (contents `print(0)`, description
`add logging`) the single user message sent is the fresh-generation
prefix plus the description, and the original file contents occur
nowhere in it. -/
theorem modify_instructions_discarded :
    (∀ s₁ s₂ p ct : String, chatgptRequest p ct s₁ = chatgptRequest p ct s₂) ∧
    envModify.fileContents "old.py" = some "print(0)" ∧
    (mainRun argsModify envModify).map modelMsgs =
      some ["Implement a python script in a single code block to perform this task: add logging"] ∧
    pyFindFrom
      "Implement a python script in a single code block to perform this task: add logging".data
      "print(0)".data 0 = -1 :=
  ⟨fun _ _ _ _ => rfl, by decide, by decide, by decide⟩

/-- C2: the repair prompt is built from the raw `--prompt` argument,
not from the resolved prompt text: in the concrete run where
`/tmp/p.txt` exists with contents `Write a CSV parser.` and the first
execution fails with `boom`, the second chat message embeds the path
`/tmp/p.txt` in the template, which differs from the template filled
with the file contents. -/
theorem repair_prompt_uses_raw_arg :
    envPromptFile.fileContents "/tmp/p.txt" = some "Write a CSV parser." ∧
    (mainRun argsPromptFile envPromptFile).map modelMsgs =
      some [chatgptRequest "Write a CSV parser." "python" defaultInstructions,
            chatgptRequest (debug_prompt "/tmp/p.txt" "print(1)" "boom") "python"
              defaultInstructions] ∧
    debug_prompt "/tmp/p.txt" "print(1)" "boom" ≠
      debug_prompt "Write a CSV parser." "print(1)" "boom" :=
  ⟨by decide, by decide, by decide⟩

/-- C6 counterexample: a python run whose first execution succeeds
writes three artifacts - `initial`, `debugged` and `final` - not two:
the unconditional final save at source line 195 runs after the loop. -/
theorem first_try_three_artifacts_cex :
    envPy.execAt 1 = ExecResult.success ∧ argsPy.code_type = "python" ∧
    (mainRun argsPy envPy).isSome = true ∧
    (saveList ((mainRun argsPy envPy).getD [])).map Prod.fst =
      ["initial", "debugged", "final"] :=
  ⟨rfl, rfl, by decide, by decide⟩

/-- C5 counterexample: a run with code type `html` (non-python,
non-latex) writes two artifacts - `initial` and `final` - not one, and
does not return immediately after the initial save: the loop body runs
once, breaks, and the final save at source line 195 still executes. -/
theorem nonpython_two_artifacts_cex :
    argsHtml.code_type = "html" ∧
    (mainRun argsHtml envHtml).isSome = true ∧
    (saveList ((mainRun argsHtml envHtml).getD [])).map Prod.fst = ["initial", "final"] :=
  ⟨rfl, by decide, by decide⟩

/-- C5 amended: a prompt-mode run with any non-python code type makes
exactly one generation call and zero executions; for `latex` it writes
exactly one artifact (`initial`) and returns, while for every other
non-python code type it writes two artifacts, `initial` and then
`final`, with identical contents, because the loop body runs once and
breaks without executing and the unconditional final save still runs. -/
theorem nonpython_artifacts (args : Args) (env : Env)
    (hp : truthy args.prompt = true) (hct : args.code_type ≠ "python") :
    ∃ t c, mainRun args env = some t ∧
      (modelMsgs t).length = 1 ∧ execList t = [] ∧
      (args.code_type = "latex" → saveList t = [("initial", c)]) ∧
      (args.code_type ≠ "latex" → saveList t = [("initial", c), ("final", c)]) := by
  by_cases hl : args.code_type = "latex"
  · have hrun := mainRun_prompt_latex args env hp hl
    refine ⟨_, call_chatgpt (promptTextOf args env) (env.respond 0) args.code_type,
      hrun, ?_, ?_, fun _ => ?_, fun hn => absurd hl hn⟩
    · simp [modelMsgs]
    · simp [execList]
    · simp [saveList]
  · have hrun := mainRun_prompt args env hp hl
    rw [loopRun_nonpython args env hct _ none 1 _ 1] at hrun
    refine ⟨_, call_chatgpt (promptTextOf args env) (env.respond 0) args.code_type,
      hrun, ?_, ?_, fun hlx => absurd hlx hl, fun _ => ?_⟩
    · simp [modelMsgs]
    · simp [execList]
    · simp [saveList]

/-- C5 witness: the amended statement instantiated on the concrete
html run. -/
theorem nonpython_artifacts_witness :
    ∃ t c, mainRun argsHtml envHtml = some t ∧
      (modelMsgs t).length = 1 ∧ execList t = [] ∧
      (argsHtml.code_type = "latex" → saveList t = [("initial", c)]) ∧
      (argsHtml.code_type ≠ "latex" → saveList t = [("initial", c), ("final", c)]) :=
  nonpython_artifacts argsHtml envHtml (by decide) (by decide)

/-- C6 amended: a prompt-mode python run whose first execution succeeds
makes exactly one generation call, executes exactly once, terminates
the loop at iteration 1, and writes exactly three artifacts -
`initial`, `debugged` and `final` - all with the same contents. -/
theorem first_try_success_artifacts (args : Args) (env : Env)
    (hp : truthy args.prompt = true) (hct : args.code_type = "python")
    (hit : 1 ≤ args.iterations.toNat) (hex : env.execAt 1 = ExecResult.success) :
    ∃ t c, mainRun args env = some t ∧
      saveList t = [("initial", c), ("debugged", c), ("final", c)] ∧
      execList t = [(c, ExecResult.success)] ∧
      (modelMsgs t).length = 1 := by
  have hnl : args.code_type ≠ "latex" := by rw [hct]; decide
  obtain ⟨m, hm⟩ : ∃ m, args.iterations.toNat = m + 1 :=
    ⟨args.iterations.toNat - 1, by omega⟩
  have hrun := mainRun_prompt args env hp hnl
  rw [hm, loopRun_success args env hct _ none 1 m 1 hex] at hrun
  refine ⟨_, call_chatgpt (promptTextOf args env) (env.respond 0) args.code_type,
    hrun, ?_, ?_, ?_⟩
  · simp [saveList, hct]
  · simp [execList]
  · simp [modelMsgs]

/-- C6 witness: the amended statement instantiated on the concrete
always-succeeding python run. -/
theorem first_try_success_artifacts_witness :
    ∃ t c, mainRun argsPy envPy = some t ∧
      saveList t = [("initial", c), ("debugged", c), ("final", c)] ∧
      execList t = [(c, ExecResult.success)] ∧
      (modelMsgs t).length = 1 :=
  first_try_success_artifacts argsPy envPy (by decide) rfl (by decide) rfl

/-- Invariant of the loop: the value of `code` it returns equals the
contents of the last artifact it saved, or the incoming code when it
saved nothing. -/
lemma loopRun_lastSave (args : Args) (env : Env) :
    ∀ (r i calls : Nat) (code : String) (lastErr : Option String),
      (lastSaveContent (loopRun args env code lastErr i r calls).1).getD code =
        (loopRun args env code lastErr i r calls).2 := by
  intro r
  induction r with
  | zero => intro i calls code lastErr; rfl
  | succ r ih =>
    intro i calls code lastErr
    by_cases hct : args.code_type = "python"
    · cases hex : env.execAt i with
      | success =>
        rw [loopRun_success args env hct code lastErr i r calls hex]
        simp [lastSaveContent]
      | failure e =>
        by_cases hl : lastErr = some e
        · subst hl
          rw [loopRun_stagnant args env hct code e i r calls hex]
          simp [lastSaveContent]
        · rw [loopRun_repair args env hct code lastErr e i r calls hex hl]
          simp only [lastSaveContent, Option.getD_some]
          exact ih (i + 1) (calls + 1) _ (some e)
    · rw [loopRun_nonpython args env hct code lastErr i (r + 1) calls]
      simp [lastSaveContent]

/-- When the run dies on a missing `--modify` file, there is no trace. -/
lemma mainRun_modify_missing (args : Args) (env : Env)
    (hp : truthy args.prompt = false) (hm : truthy args.modify = true)
    (hfc : env.fileContents (args.modify.getD "") = none) :
    mainRun args env = none := by
  unfold mainRun
  rw [hp, hm, hfc]
  simp

/-- C7: every run that reaches the exit of the debug loop - any flag
mode, any code type other than the pre-loop `latex` return, any mix of
success, stagnation or exhaustion - ends its trace with a `final`
artifact save whose contents equal the last code produced, i.e. the
contents of the last artifact saved before it. -/
theorem final_artifact_always_written (args : Args) (env : Env) (t : List Event)
    (hrun : mainRun args env = some t)
    (hflag : truthy args.prompt = true ∨ truthy args.modify = true)
    (hnl : args.code_type ≠ "latex") :
    ∃ c, t.getLast? = some (Event.save c args.code_type args.iterations "final") ∧
      lastSaveContent t.dropLast = some c := by
  have key : ∀ (msg0 code0 : String),
      t = Event.modelCall msg0 :: Event.save code0 args.code_type 0 "initial" ::
        ((loopRun args env code0 none 1 args.iterations.toNat 1).1 ++
          [Event.save (loopRun args env code0 none 1 args.iterations.toNat 1).2
            args.code_type args.iterations "final"]) →
      ∃ c, t.getLast? = some (Event.save c args.code_type args.iterations "final") ∧
        lastSaveContent t.dropLast = some c := by
    intro msg0 code0 ht
    subst ht
    refine ⟨(loopRun args env code0 none 1 args.iterations.toNat 1).2, ?_, ?_⟩
    · rw [← List.cons_append, ← List.cons_append, List.getLast?_concat]
    · rw [← List.cons_append, ← List.cons_append, List.dropLast_concat]
      simp only [lastSaveContent, Option.some.injEq]
      exact loopRun_lastSave args env args.iterations.toNat 1 1 code0 none
  by_cases hp : truthy args.prompt = true
  · have h2 := mainRun_prompt args env hp hnl
    rw [hrun] at h2
    exact key _ _ (Option.some.inj h2)
  · have hp' : truthy args.prompt = false := by
      revert hp; cases truthy args.prompt <;> simp
    have hm : truthy args.modify = true := hflag.resolve_left hp
    cases hfc : env.fileContents (args.modify.getD "") with
    | none =>
        rw [mainRun_modify_missing args env hp' hm hfc] at hrun
        exact absurd hrun (by simp)
    | some fileCode =>
        have h2 := mainRun_modify args env hp' hm hnl fileCode hfc
        rw [hrun] at h2
        exact key _ _ (Option.some.inj h2)

/-- Shape of a python loop run over a block of `r` consecutive failing
iterations whose error texts never repeat consecutively: each of the
`r` iterations executes once, makes one repair call, and saves one
`iteration_<j>` artifact, after which the loop continues from
iteration `i + r` with the last produced code and the last error
recorded. -/
lemma loopRun_fail_prefix (args : Args) (env : Env) (err : Nat → String)
    (hct : args.code_type = "python") :
    ∀ (r i calls : Nat) (code : String) (lastErr : Option String),
      (∀ j, i ≤ j → j < i + r → env.execAt j = ExecResult.failure (err j)) →
      (∀ j, i ≤ j → j + 1 < i + r → err j ≠ err (j + 1)) →
      (r = 0 ∨ lastErr ≠ some (err i)) →
      ∃ tr code' lastErr2,
        (∀ m, loopRun args env code lastErr i (r + m) calls =
          (tr ++ (loopRun args env code' lastErr2 (i + r) m (calls + r)).1,
           (loopRun args env code' lastErr2 (i + r) m (calls + r)).2)) ∧
        (modelMsgs tr).length = r ∧
        (execList tr).length = r ∧
        (saveList tr).map Prod.fst =
          (List.range' i r).map (fun j => "iteration_" ++ toString j) ∧
        (r = 0 → tr = [] ∧ code' = code ∧ lastErr2 = lastErr) ∧
        (1 ≤ r → lastErr2 = some (err (i + r - 1)) ∧
          (saveList tr).getLast? = some ("iteration_" ++ toString (i + r - 1), code')) := by
  intro r
  induction r with
  | zero =>
    intro i calls code lastErr hfail hdist hlast
    refine ⟨[], code, lastErr, ?_, rfl, rfl, rfl, fun _ => ⟨rfl, rfl, rfl⟩,
      fun h => absurd h (by omega)⟩
    intro m
    simp
  | succ r ih =>
    intro i calls code lastErr hfail hdist hlast
    have hlast' : lastErr ≠ some (err i) := hlast.resolve_left (by omega)
    have hexi : env.execAt i = ExecResult.failure (err i) := hfail i le_rfl (by omega)
    set newCode := debug_code_with_chatgpt (pyStr args.prompt) code (err i)
      (env.respond calls) args.code_type with hnew
    have hIH := ih (i + 1) (calls + 1) newCode (some (err i))
      (fun j h1 h2 => hfail j (by omega) (by omega))
      (fun j h1 h2 => hdist j (by omega) (by omega))
      (by
        rcases Nat.eq_zero_or_pos r with h0 | h1
        · exact Or.inl h0
        · refine Or.inr fun hcon => ?_
          exact hdist i le_rfl (by omega) (Option.some.inj hcon))
    obtain ⟨tr', code', lastErr2, hEq, hm, he, hs, h0, h1⟩ := hIH
    have hlen : (saveList tr').length = r := by
      have := congrArg List.length hs
      simpa using this
    refine ⟨Event.execEvent code (ExecResult.failure (err i)) ::
        Event.modelCall (chatgptRequest (debug_prompt (pyStr args.prompt) code (err i))
          args.code_type defaultInstructions) ::
        Event.save newCode args.code_type (i : Int) ("iteration_" ++ toString i) :: tr',
      code', lastErr2, ?_, ?_, ?_, ?_, fun habs => absurd habs (by omega), fun _ => ?_⟩
    · intro m
      have hstep := loopRun_repair args env hct code lastErr (err i) i (r + m) calls
        hexi hlast'
      rw [← hnew] at hstep
      have harith : r + 1 + m = (r + m) + 1 := by omega
      rw [harith, hstep, hEq m]
      have hi : i + 1 + r = i + (r + 1) := by omega
      have hc : calls + 1 + r = calls + (r + 1) := by omega
      rw [hi, hc]
      simp
    · simp [modelMsgs, hm]
    · simp [execList, he]
    · simp only [saveList, List.map_cons]
      rw [List.range'_succ, List.map_cons, hs]
    · rcases Nat.eq_zero_or_pos r with h0' | h1'
      · obtain ⟨htr, hcode, hle⟩ := h0 h0'
        subst h0'
        constructor
        · have hx : i + (0 + 1) - 1 = i := by omega
          rw [hx]
          exact hle
        · rw [htr, hcode]
          have hx : i + (0 + 1) - 1 = i := by omega
          rw [hx]
          simp [saveList]
      · obtain ⟨hl2, hgl⟩ := h1 h1'
        have hidx : i + 1 + r - 1 = i + (r + 1) - 1 := by omega
        rw [hidx] at hl2 hgl
        refine ⟨hl2, ?_⟩
        have hcons : saveList (Event.execEvent code (ExecResult.failure (err i)) ::
            Event.modelCall (chatgptRequest (debug_prompt (pyStr args.prompt) code (err i))
              args.code_type defaultInstructions) ::
            Event.save newCode args.code_type (i : Int) ("iteration_" ++ toString i) :: tr') =
            ("iteration_" ++ toString i, newCode) :: saveList tr' := by
          simp [saveList]
        rw [hcons, getLast?_cons_of_ne_nil _ (by
          intro hnil
          rw [hnil] at hlen
          simp at hlen
          omega), hgl]

/-- C8: in a prompt-mode python run where every execution up to the
iteration budget `n` fails and no two consecutive error texts are
equal, the run makes exactly `n` repair calls (`n + 1` chat calls in
total, the extra one being the initial generation), executes `n`
times, saves `initial`, `iteration_1` ... `iteration_n` and `final`,
and the `final` artifact contents equal the last generated code (the
contents of the `iteration_n` artifact). -/
theorem exhaustion_repair_calls (args : Args) (env : Env) (err : Nat → String) (n : Nat)
    (hp : truthy args.prompt = true) (hct : args.code_type = "python")
    (hn : args.iterations.toNat = n) (hn1 : 1 ≤ n)
    (hfail : ∀ j, 1 ≤ j → j ≤ n → env.execAt j = ExecResult.failure (err j))
    (hdist : ∀ j, 1 ≤ j → j + 1 ≤ n → err j ≠ err (j + 1)) :
    ∃ t, mainRun args env = some t ∧
      (modelMsgs t).length = n + 1 ∧
      (execList t).length = n ∧
      (saveList t).map Prod.fst =
        "initial" :: ((List.range' 1 n).map fun j => "iteration_" ++ toString j) ++
          ["final"] ∧
      ∃ c, (saveList t).getLast? = some ("final", c) ∧
        (saveList t).dropLast.getLast? = some ("iteration_" ++ toString n, c) := by
  have hnl : args.code_type ≠ "latex" := by rw [hct]; decide
  have hrun := mainRun_prompt args env hp hnl
  obtain ⟨tr, code', lastErr2, hEq, hm, he, hs, h0, h1⟩ :=
    loopRun_fail_prefix args env err hct n 1 1
      (call_chatgpt (promptTextOf args env) (env.respond 0) args.code_type) none
      (fun j hj1 hj2 => hfail j hj1 (by omega))
      (fun j hj1 hj2 => hdist j hj1 (by omega))
      (Or.inr (by simp))
  obtain ⟨hl2, hgl⟩ := h1 hn1
  have hidx : 1 + n - 1 = n := by omega
  rw [hidx] at hgl
  have hloop := hEq 0
  rw [Nat.add_zero, loopRun_zero] at hloop
  rw [hn, hloop] at hrun
  simp only [List.append_nil] at hrun
  refine ⟨_, hrun, ?_, ?_, ?_, code', ?_, ?_⟩
  · simp [modelMsgs, modelMsgs_append, hm]
  · simp [execList, execList_append, he]
  · simp [saveList, saveList_append, hs]
  · have : saveList (Event.modelCall (chatgptRequest (promptTextOf args env)
        args.code_type defaultInstructions) ::
        Event.save (call_chatgpt (promptTextOf args env) (env.respond 0) args.code_type)
          args.code_type 0 "initial" ::
        (tr ++ [Event.save code' args.code_type args.iterations "final"])) =
        (("initial", call_chatgpt (promptTextOf args env) (env.respond 0) args.code_type) ::
          saveList tr) ++ [("final", code')] := by
      simp [saveList, saveList_append]
    rw [this, List.getLast?_concat]
  · have : saveList (Event.modelCall (chatgptRequest (promptTextOf args env)
        args.code_type defaultInstructions) ::
        Event.save (call_chatgpt (promptTextOf args env) (env.respond 0) args.code_type)
          args.code_type 0 "initial" ::
        (tr ++ [Event.save code' args.code_type args.iterations "final"])) =
        (("initial", call_chatgpt (promptTextOf args env) (env.respond 0) args.code_type) ::
          saveList tr) ++ [("final", code')] := by
      simp [saveList, saveList_append]
    rw [this, List.dropLast_concat, getLast?_cons_of_ne_nil _ (by
      intro hnil
      have := congrArg List.length hs
      rw [hnil] at this
      simp at this
      omega), hgl]

/-- C8 witness: the exhaustion law instantiated on the concrete run
with budget 2 where iteration `i` fails with the distinct error
`e<i>`. -/
theorem exhaustion_repair_calls_witness :
    ∃ t, mainRun argsExh envExh = some t ∧
      (modelMsgs t).length = 2 + 1 ∧
      (execList t).length = 2 ∧
      (saveList t).map Prod.fst =
        "initial" :: ((List.range' 1 2).map fun j => "iteration_" ++ toString j) ++
          ["final"] ∧
      ∃ c, (saveList t).getLast? = some ("final", c) ∧
        (saveList t).dropLast.getLast? = some ("iteration_" ++ toString 2, c) :=
  exhaustion_repair_calls argsExh envExh (fun i => "e" ++ toString i) 2
    (by decide) rfl (by decide) (by decide)
    (fun j h1 h2 => rfl)
    (by
      intro j h1 h2
      have hj : j = 1 := by omega
      subst hj
      decide)

/-- C4: in a prompt-mode python run whose iterations `1 .. k` fail
with pairwise consecutively distinct error texts and whose iteration
`k + 1` fails with the same error text as iteration `k`, the loop
terminates at iteration `k + 1`: there are exactly `k + 1` executions
and `k + 1` chat calls (the initial generation plus one repair call
per iteration `1 .. k`, hence no repair call at the stagnant iteration
or later), the artifacts are exactly `initial`, `iteration_1` ...
`iteration_k` and `final` (no artifact for the stagnant iteration),
and the `final` artifact contents equal the code executed at iteration
`k + 1`. -/
theorem stagnation_terminates (args : Args) (env : Env) (err : Nat → String) (k : Nat)
    (hp : truthy args.prompt = true) (hct : args.code_type = "python")
    (hk1 : 1 ≤ k) (hkn : k + 1 ≤ args.iterations.toNat)
    (hfail : ∀ j, 1 ≤ j → j ≤ k + 1 → env.execAt j = ExecResult.failure (err j))
    (hdist : ∀ j, 1 ≤ j → j + 1 ≤ k → err j ≠ err (j + 1))
    (heq : err (k + 1) = err k) :
    ∃ t, mainRun args env = some t ∧
      (modelMsgs t).length = k + 1 ∧
      (execList t).length = k + 1 ∧
      (saveList t).map Prod.fst =
        "initial" :: ((List.range' 1 k).map fun j => "iteration_" ++ toString j) ++
          ["final"] ∧
      ∃ c, (execList t).getLast? = some (c, ExecResult.failure (err (k + 1))) ∧
        (saveList t).getLast? = some ("final", c) := by
  have hnl : args.code_type ≠ "latex" := by rw [hct]; decide
  have hrun := mainRun_prompt args env hp hnl
  obtain ⟨m, hm'⟩ : ∃ m, args.iterations.toNat = k + (m + 1) :=
    ⟨args.iterations.toNat - k - 1, by omega⟩
  obtain ⟨tr, code', lastErr2, hEq, hm, he, hs, h0, h1⟩ :=
    loopRun_fail_prefix args env err hct k 1 1
      (call_chatgpt (promptTextOf args env) (env.respond 0) args.code_type) none
      (fun j hj1 hj2 => hfail j hj1 (by omega))
      (fun j hj1 hj2 => hdist j hj1 (by omega))
      (Or.inr (by simp))
  obtain ⟨hl2, hgl⟩ := h1 hk1
  have hone : 1 + k = k + 1 := by omega
  have hidx : 1 + k - 1 = k := by omega
  rw [hidx] at hl2
  have hl2' : lastErr2 = some (err (k + 1)) := by rw [hl2, heq]
  have hex2 : env.execAt (k + 1) = ExecResult.failure (err (k + 1)) :=
    hfail (k + 1) (by omega) le_rfl
  have hloop := hEq (m + 1)
  rw [hone, hl2'] at hloop
  rw [loopRun_stagnant args env hct code' (err (k + 1)) (k + 1) m (k + 1) hex2] at hloop
  rw [hm', hloop] at hrun
  refine ⟨_, hrun, ?_, ?_, ?_, code', ?_, ?_⟩
  · simp [modelMsgs, modelMsgs_append, hm]
  · simp [execList, execList_append, he]
  · simp [saveList, saveList_append, hs]
  · have : execList (Event.modelCall (chatgptRequest (promptTextOf args env)
        args.code_type defaultInstructions) ::
        Event.save (call_chatgpt (promptTextOf args env) (env.respond 0) args.code_type)
          args.code_type 0 "initial" ::
        ((tr ++ [Event.execEvent code' (ExecResult.failure (err (k + 1)))]) ++
          [Event.save code' args.code_type args.iterations "final"])) =
        execList tr ++ [(code', ExecResult.failure (err (k + 1)))] := by
      simp [execList, execList_append]
    rw [this, List.getLast?_concat]
  · have : saveList (Event.modelCall (chatgptRequest (promptTextOf args env)
        args.code_type defaultInstructions) ::
        Event.save (call_chatgpt (promptTextOf args env) (env.respond 0) args.code_type)
          args.code_type 0 "initial" ::
        ((tr ++ [Event.execEvent code' (ExecResult.failure (err (k + 1)))]) ++
          [Event.save code' args.code_type args.iterations "final"])) =
        (("initial", call_chatgpt (promptTextOf args env) (env.respond 0) args.code_type) ::
          saveList tr) ++ [("final", code')] := by
      simp [saveList, saveList_append]
    rw [this, List.getLast?_concat]

/-- C4 witness: the stagnation law instantiated on the concrete run
where every execution fails with the error text `E`, with `k = 1`. -/
theorem stagnation_terminates_witness :
    ∃ t, mainRun argsStag envStag = some t ∧
      (modelMsgs t).length = 1 + 1 ∧
      (execList t).length = 1 + 1 ∧
      (saveList t).map Prod.fst =
        "initial" :: ((List.range' 1 1).map fun j => "iteration_" ++ toString j) ++
          ["final"] ∧
      ∃ c, (execList t).getLast? = some (c, ExecResult.failure "E") ∧
        (saveList t).getLast? = some ("final", c) :=
  stagnation_terminates argsStag envStag (fun _ => "E") 1
    (by decide) rfl (by decide) (by decide)
    (fun j h1 h2 => rfl)
    (fun j h1 h2 => absurd h2 (by omega))
    rfl

/-- C7 witness: the final-artifact property instantiated on the
concrete always-succeeding python run. -/
theorem final_artifact_always_written_witness :
    ∃ c, ((mainRun argsPy envPy).getD []).getLast? =
        some (Event.save c "python" 5 "final") ∧
      lastSaveContent ((mainRun argsPy envPy).getD []).dropLast = some c :=
  final_artifact_always_written argsPy envPy ((mainRun argsPy envPy).getD [])
    (by decide) (Or.inl (by decide)) (by decide)

/-- A pattern that matches at position `j` lies inside the string when
it is non-empty. -/
lemma lt_length_of_leadsWith (pat s : List Char) (j : Nat) (hp : pat ≠ [])
    (h : leadsWith pat (s.drop j) = true) : j < s.length := by
  by_contra hge
  push_neg at hge
  rw [List.drop_eq_nil_of_le hge] at h
  cases pat with
  | nil => exact hp rfl
  | cons a as => simp [leadsWith] at h

/-- `findIdx` returns exactly the least position at which the pattern
matches. -/
lemma findIdx_of_least (pat : List Char) :
    ∀ (s : List Char) (k : Nat),
      leadsWith pat (s.drop k) = true →
      (∀ i, i < k → leadsWith pat (s.drop i) = false) →
      findIdx pat s = some k := by
  intro s
  induction s with
  | nil =>
    intro k hocc hleast
    rw [List.drop_nil] at hocc
    have hk : k = 0 := by
      by_contra hne
      have h0 := hleast 0 (by omega)
      rw [List.drop_nil] at h0
      rw [h0] at hocc
      exact Bool.false_ne_true hocc
    subst hk
    simp [findIdx, hocc]
  | cons c rest ih =>
    intro k hocc hleast
    cases k with
    | zero =>
      rw [List.drop_zero] at hocc
      simp [findIdx, hocc]
    | succ k =>
      have h0 := hleast 0 (by omega)
      rw [List.drop_zero] at h0
      rw [List.drop_succ_cons] at hocc
      have hrest := ih k hocc (fun i hi => by
        have hx := hleast (i + 1) (by omega)
        rwa [List.drop_succ_cons] at hx)
      simp [findIdx, h0, hrest]

/-- Python `find` with a start bound returns exactly the least position
at or after the bound at which the (non-empty) pattern matches. -/
lemma pyFindFrom_of_least (s pat : List Char) (start k : Nat) (hp : pat ≠ [])
    (hsk : start ≤ k)
    (hocc : leadsWith pat (s.drop k) = true)
    (hleast : ∀ i, i < k → start ≤ i → leadsWith pat (s.drop i) = false) :
    pyFindFrom s pat (start : Int) = (k : Int) := by
  have hklen : k < s.length := lt_length_of_leadsWith pat s k hp hocc
  have hstart : pyIndex s.length (start : Int) = start := by
    unfold pyIndex
    rw [if_neg (by omega)]
    rw [Int.toNat_ofNat]
    exact Nat.min_eq_left (by omega)
  have hfi : findIdx pat (s.drop start) = some (k - start) := by
    apply findIdx_of_least
    · rw [List.drop_drop]
      have hx : start + (k - start) = k := by omega
      rw [hx]
      exact hocc
    · intro i hi
      rw [List.drop_drop]
      exact hleast (start + i) (by omega) (by omega)
  simp only [pyFindFrom]
  rw [hstart, hfi]
  simp
  omega

/-- C9: whenever the response text contains the opening tag
(first occurrence at position `i`) and a closing `\n` + three-backticks
fence after the tag (first such occurrence at position `j`),
`extract_code` returns exactly the substring strictly between the end
of the opening tag and the closing fence - in particular, extracting
from prose around a fenced `print(1)` block yields exactly `print(1)`
(see the witness). -/
theorem extraction_between_first_tags (content code_type : List Char) (i j : Nat)
    (hocc : leadsWith (tagFor code_type) (content.drop i) = true)
    (hfirst : ∀ i2, i2 < i → leadsWith (tagFor code_type) (content.drop i2) = false)
    (hclose : leadsWith "\n```".data (content.drop j) = true)
    (hij : i + (tagFor code_type).length ≤ j)
    (hfirstc : ∀ j2, j2 < j → i + (tagFor code_type).length ≤ j2 →
      leadsWith "\n```".data (content.drop j2) = false) :
    extract_code content code_type =
      (content.drop (i + (tagFor code_type).length)).take
        (j - (i + (tagFor code_type).length)) := by
  have htag : tagFor code_type ≠ [] := by
    intro h
    have hlen := congrArg List.length h
    simp only [tagFor, List.length_append, List.length_nil] at hlen
    have h3 : ("```".data).length = 3 := rfl
    have h1 : ("\n".data).length = 1 := rfl
    rw [h3, h1] at hlen
    omega
  have hclose_ne : ("\n```".data : List Char) ≠ [] := by decide
  have hjlen : j < content.length := lt_length_of_leadsWith _ _ _ hclose_ne hclose
  have hfind1 : pyFindFrom content (tagFor code_type) ((0 : Nat) : Int) = (i : Int) :=
    pyFindFrom_of_least content (tagFor code_type) 0 i htag (by omega) hocc
      (fun i2 h2 _ => hfirst i2 h2)
  have hfind2 : pyFindFrom content "\n```".data
      ((i + (tagFor code_type).length : Nat) : Int) = (j : Int) :=
    pyFindFrom_of_least content _ _ j hclose_ne hij hclose
      (fun j2 h2 hge => hfirstc j2 h2 hge)
  have hzero : ((0 : Nat) : Int) = (0 : Int) := rfl
  rw [hzero] at hfind1
  simp only [extract_code]
  rw [hfind1]
  have hcast : (i : Int) + ((tagFor code_type).length : Int) =
      ((i + (tagFor code_type).length : Nat) : Int) := by push_cast; ring
  rw [hcast, hfind2]
  simp only [pySlice]
  have h1 : pyIndex content.length ((i + (tagFor code_type).length : Nat) : Int) =
      i + (tagFor code_type).length := by
    unfold pyIndex
    rw [if_neg (by omega)]
    rw [Int.toNat_ofNat]
    exact Nat.min_eq_left (by omega)
  have h2 : pyIndex content.length ((j : Nat) : Int) = j := by
    unfold pyIndex
    rw [if_neg (by omega)]
    rw [Int.toNat_ofNat]
    exact Nat.min_eq_left (by omega)
  rw [h1, h2, List.drop_take]

/-- C9 witness: extracting the python block out of prose containing
a fenced `print(1)` yields exactly `print(1)`, via the general theorem
at the concrete first-occurrence positions 5 and 23. -/
theorem extraction_between_first_tags_witness :
    extract_code "See:\n```python\nprint(1)\n```\nok".data "python".data =
      "print(1)".data := by
  have h := extraction_between_first_tags "See:\n```python\nprint(1)\n```\nok".data
    "python".data 5 23 (by decide) (by decide) (by decide) (by decide) (by decide)
  rw [h]
  decide

end CatHerder
